import Mathlib

/-!
Verification of the receptionist actor of the semaphore-restaurant simulation
(semSharedMemReceptionist.c).

The shallow embedding below translates the receptionist's data and operations:

* `State` models the fields of the shared region and the receptionist's
  private ledger that the receptionist reads or writes: `groupRecord`
  (private ledger, one phase code per group), `assignedTable` (shared
  group-to-table binding, `-1` meaning unassigned), `groupsWaiting`
  (shared counter) and `receptionistStat` (shared status field).
* `scanTables`, `decideTableOrWait`, `decideNextGroup`,
  `provideTableOrWaitingRoom`, `receivePayment` and `dispatch` are direct
  translations of the corresponding C functions; the handlers additionally
  return the list of per-group / per-table semaphore signals they emit.
* `waitForGroupE`, `provideE`, `receiveE`, `dispatchE`, `runLoop` and
  `mainE` model the same code at the level of semaphore operations:
  every `semDown`/`semUp` consumes one cell of a success oracle and a
  failure makes the whole process exit with `EXIT_FAILURE`, exactly as the
  `exit (EXIT_FAILURE)` calls in the source do.
* `Step` is the transition relation generated by protocol-conformant
  invocations of the two handlers (a table request comes from a group that
  has not arrived yet; a bill request comes from a group seated at a table).
-/

/- Phase codes of the private ledger, from the defines in the source. -/

def TOARRIVE : Nat := 0

def WAIT : Nat := 1

def ATTABLE : Nat := 2

def DONE : Nat := 3

/-- Modelled from the spec: the request kinds (the header defining the
numeric values of TABLEREQ and BILLREQ is not part of the sources; only
their distinctness matters to the dispatch switch). -/
def TABLEREQ : Nat := 0

/-- Modelled from the spec: the bill request kind, distinct from `TABLEREQ`. -/
def BILLREQ : Nat := 1

/-- Modelled from the spec: the receptionist status codes published in shared
memory (WAIT_FOR_REQUEST, ASSIGNTABLE, RECVPAY); only distinctness matters. -/
def WAIT_FOR_REQUEST : Nat := 0

/-- Modelled from the spec: status published while assigning a table. -/
def ASSIGNTABLE : Nat := 1

/-- Modelled from the spec: status published while receiving a payment. -/
def RECVPAY : Nat := 2

/-- Modelled from the spec: exit code of a successful process. -/
def EXIT_SUCCESS : Nat := 0

/-- Modelled from the spec: exit code used by every fatal-error branch. -/
def EXIT_FAILURE : Nat := 1

/-- Modelled from the spec: a request is a kind plus a group id. -/
structure request where
  reqType : Nat
  reqGroup : Nat
  deriving DecidableEq

/-- The receptionist-visible state: the private ledger `groupRecord` and the
shared fields it touches (`assignedTable`, `groupsWaiting`,
`receptionistStat`).  The two arrays have one entry per group. -/
structure State where
  groupRecord : List Nat
  assignedTable : List Int
  groupsWaiting : Nat
  receptionistStat : Nat
  deriving DecidableEq

/-- Semaphore signals emitted by the handlers: `waitForTable g` is the up
operation on group g's grant semaphore, `tableDone t` the up operation on
table t's vacancy semaphore (the index may be any int the code computes). -/
inductive Signal where
  | waitForTable (g : Nat)
  | tableDone (t : Int)
  deriving DecidableEq

/-- The scan loop of `decideTableOrWait`: walks the `assignedTable` array with
accumulator `tableId` (initially 0) and busy-entry counter `num` (initially
0); an entry equal to 1 proposes table 0, an entry equal to 0 proposes
table 1, and a second busy entry aborts with -1 (the `break` in the source). -/
def scanTables : List Int → Int → Nat → Int
  | [], tableId, _ => tableId
  | a :: rest, tableId, num =>
    if a = 1 then
      if num = 0 then scanTables rest 0 (num + 1) else -1
    else if a = 0 then
      if num = 0 then scanTables rest 1 (num + 1) else -1
    else
      scanTables rest tableId num

/-- decideTableOrWait from the source: scan the occupancy, and either seat
group n (ledger entry becomes ATTABLE, returning the free table id) or put it
on the waitlist (ledger entry becomes WAIT, `groupsWaiting` incremented,
returning -1). -/
def decideTableOrWait (s : State) (n : Nat) : Int × State :=
  let tableId := scanTables s.assignedTable 0 0
  if tableId ≠ -1 then
    (tableId, { s with groupRecord := s.groupRecord.set n ATTABLE })
  else
    (-1, { s with groupRecord := s.groupRecord.set n WAIT,
                  groupsWaiting := s.groupsWaiting + 1 })

/-- The scan loop of `decideNextGroup`: index of the first ledger entry in
WAIT phase, if any. -/
def findWait : List Nat → Option Nat
  | [] => none
  | r :: rest => if r = WAIT then some 0 else (findWait rest).map (fun g => g + 1)

/-- decideNextGroup from the source: if `groupsWaiting` is 0 report no
candidate; otherwise take the waiting group with the smallest id, flip it to
ATTABLE, decrement `groupsWaiting` and return its id (or -1 if, contrary to
the counter, no ledger entry is in WAIT phase — the loop then falls through). -/
def decideNextGroup (s : State) : Int × State :=
  if s.groupsWaiting = 0 then
    (-1, s)
  else
    match findWait s.groupRecord with
    | some g =>
        (Int.ofNat g,
         { s with groupRecord := s.groupRecord.set g ATTABLE,
                  groupsWaiting := s.groupsWaiting - 1 })
    | none => (-1, s)

/-- provideTableOrWaitingRoom from the source (critical-section body): publish
ASSIGNTABLE, run `decideTableOrWait`, and on a grant bind the table in the
shared record and signal that group's grant semaphore; on the wait branch no
signal is emitted. -/
def provideTableOrWaitingRoom (s : State) (n : Nat) : State × List Signal :=
  let s1 := { s with receptionistStat := ASSIGNTABLE }
  let r := decideTableOrWait s1 n
  if r.1 ≠ -1 then
    ({ r.2 with assignedTable := r.2.assignedTable.set n r.1 }, [Signal.waitForTable n])
  else
    (r.2, [])

/-- receivePayment from the source: publish RECVPAY, read the payer's table
binding, run `decideNextGroup`; on a candidate rebind that table to the
candidate, mark the payer DONE and signal the candidate's grant semaphore;
in both branches clear the payer's binding and finally (outside the lock)
signal the vacancy semaphore at index `tableId`. -/
def receivePayment (s : State) (n : Nat) : State × List Signal :=
  let s1 := { s with receptionistStat := RECVPAY }
  let tableId := s1.assignedTable.getD n (-1)
  let r := decideNextGroup s1
  if r.1 ≠ -1 then
    ({ r.2 with assignedTable := (r.2.assignedTable.set r.1.toNat tableId).set n (-1),
                groupRecord := r.2.groupRecord.set n DONE },
     [Signal.waitForTable r.1.toNat, Signal.tableDone tableId])
  else
    ({ r.2 with assignedTable := r.2.assignedTable.set n (-1) },
     [Signal.tableDone tableId])

/-- The dispatch switch of the main loop: a TABLEREQ goes to
`provideTableOrWaitingRoom`, a BILLREQ to `receivePayment`, and any other
kind matches no case of the switch, so nothing at all happens. -/
def dispatch (s : State) (req : request) : State × List Signal :=
  if req.reqType = TABLEREQ then provideTableOrWaitingRoom s req.reqGroup
  else if req.reqType = BILLREQ then receivePayment s req.reqGroup
  else (s, [])

/-! ## Semaphore-level model

Each `semDown`/`semUp` in the source can fail, and every failure branch runs
`exit (EXIT_FAILURE)`.  `SemOracle` gives the outcome of the k-th semaphore
operation of the run; a failed operation aborts the whole computation with
`EXIT_FAILURE` as the process exit status. -/

/-- Outcome oracle for the successive semaphore operations of a run. -/
def SemOracle : Type := Nat → Bool

/-- One semaphore operation: on success the operation counter advances, on
failure the process exits with `EXIT_FAILURE`. -/
def semOp (env : SemOracle) (k : Nat) : Except Nat Nat :=
  if env k then .ok (k + 1) else .error EXIT_FAILURE

/-- waitForGroup from the source at semaphore level: down mutex, publish
WAIT_FOR_REQUEST (and log), up mutex, down receptionistReq, down mutex, copy
the pending request out of the slot, up mutex, up receptionistRequestPossible
(the slot-free signal).  `slot` is the content of the pending-request slot. -/
def waitForGroupE (env : SemOracle) (slot : request) (s : State) (k : Nat) :
    Except Nat (request × State × Nat) :=
  match semOp env k with
  | .error e => .error e
  | .ok k =>
    let s := { s with receptionistStat := WAIT_FOR_REQUEST }
    match semOp env k with
    | .error e => .error e
    | .ok k =>
      match semOp env k with
      | .error e => .error e
      | .ok k =>
        match semOp env k with
        | .error e => .error e
        | .ok k =>
          let req := slot
          match semOp env k with
          | .error e => .error e
          | .ok k =>
            match semOp env k with
            | .error e => .error e
            | .ok k => .ok (req, s, k)

/-- provideTableOrWaitingRoom at semaphore level: down mutex, decide, on a
grant up the group's grant semaphore, up mutex. -/
def provideE (env : SemOracle) (n : Nat) (s : State) (k : Nat) :
    Except Nat (State × Nat) :=
  match semOp env k with
  | .error e => .error e
  | .ok k =>
    let s := { s with receptionistStat := ASSIGNTABLE }
    let r := decideTableOrWait s n
    if r.1 ≠ -1 then
      let s2 := { r.2 with assignedTable := r.2.assignedTable.set n r.1 }
      match semOp env k with
      | .error e => .error e
      | .ok k =>
        match semOp env k with
        | .error e => .error e
        | .ok k => .ok (s2, k)
    else
      match semOp env k with
      | .error e => .error e
      | .ok k => .ok (r.2, k)

/-- receivePayment at semaphore level: down mutex, decide, on a candidate up
that group's grant semaphore, clear the payer's binding, up mutex, and then
(outside the lock) up the vacancy semaphore of the table read at entry. -/
def receiveE (env : SemOracle) (n : Nat) (s : State) (k : Nat) :
    Except Nat (State × Nat) :=
  match semOp env k with
  | .error e => .error e
  | .ok k =>
    let s := { s with receptionistStat := RECVPAY }
    let tableId := s.assignedTable.getD n (-1)
    let r := decideNextGroup s
    if r.1 ≠ -1 then
      let s2 := { r.2 with
                    assignedTable := (r.2.assignedTable.set r.1.toNat tableId).set n (-1),
                    groupRecord := r.2.groupRecord.set n DONE }
      match semOp env k with
      | .error e => .error e
      | .ok k =>
        match semOp env k with
        | .error e => .error e
        | .ok k =>
          match semOp env k with
          | .error e => .error e
          | .ok k => .ok (s2, k)
    else
      let s2 := { r.2 with assignedTable := r.2.assignedTable.set n (-1) }
      match semOp env k with
      | .error e => .error e
      | .ok k =>
        match semOp env k with
        | .error e => .error e
        | .ok k => .ok (s2, k)

/-- The dispatch switch of the main loop at semaphore level: unknown kinds
match no case of the switch and perform no operation at all. -/
def dispatchE (env : SemOracle) (req : request) (s : State) (k : Nat) :
    Except Nat (State × Nat) :=
  if req.reqType = TABLEREQ then provideE env req.reqGroup s k
  else if req.reqType = BILLREQ then receiveE env req.reqGroup s k
  else .ok (s, k)

/-- The main loop of the source, counting down the remaining requests
(`2 * nGroups` initially): each iteration waits for a request, dispatches it
and increments the request counter `i` unconditionally. -/
def runLoop (env : SemOracle) (reqs : Nat → request) :
    Nat → State → Nat → Nat → Except Nat (State × Nat)
  | 0, s, _, i => .ok (s, i)
  | r + 1, s, k, i =>
    match waitForGroupE env (reqs i) s k with
    | .error e => .error e
    | .ok (req, s1, k1) =>
      match dispatchE env req s1 k1 with
      | .error e => .error e
      | .ok (s2, k2) => runLoop env reqs r s2 k2 (i + 1)

/-- The simulation part of main: run the loop for `2 * nGroups` requests and
return `EXIT_SUCCESS` with the number of requests processed, or the failure
exit code. -/
def mainE (env : SemOracle) (reqs : Nat → request) (nGroups : Nat) (s0 : State) :
    Except Nat (Nat × Nat) :=
  match runLoop env reqs (2 * nGroups) s0 0 0 with
  | .ok (_, i) => .ok (EXIT_SUCCESS, i)
  | .error e => .error e

/-! ## Temporal trace of waitForGroup -/

/-- The synchronization-relevant events of `waitForGroup`, in source order. -/
inductive WEvent where
  | acquireMutex
  | publishWaitingStatus
  | saveLog
  | releaseMutex
  | blockOnRequestAvailable
  | copyPendingRequest
  | signalSlotFree
  deriving DecidableEq

/-- The straight-line event trace of `waitForGroup`, read off the source:
down mutex, publish status, save the log, up mutex, down receptionistReq,
down mutex, copy the request out of the slot, up mutex, up
receptionistRequestPossible. -/
def waitForGroupTrace : List WEvent :=
  [WEvent.acquireMutex, WEvent.publishWaitingStatus, WEvent.saveLog,
   WEvent.releaseMutex, WEvent.blockOnRequestAvailable, WEvent.acquireMutex,
   WEvent.copyPendingRequest, WEvent.releaseMutex, WEvent.signalSlotFree]

/-! ## Protocol transition system -/

/-- Count of ledger entries in WAIT phase. -/
def countWait : List Nat → Nat
  | [] => 0
  | r :: rest => (if r = WAIT then 1 else 0) + countWait rest

/-- The shared counter agrees with the ledger (spec invariant, observed
whenever the mutual-exclusion lock is not held). -/
def waitingConsistent (s : State) : Prop :=
  s.groupsWaiting = countWait s.groupRecord

/-- At most one group is bound to any table: an assigned (non -1) binding of
one group differs from every other group's binding. -/
def NoDoubleBooking (s : State) : Prop :=
  ∀ g1 g2, g1 < s.assignedTable.length → g2 < s.assignedTable.length →
    g1 ≠ g2 →
    s.assignedTable.getD g1 (-1) = -1 ∨
    s.assignedTable.getD g1 (-1) ≠ s.assignedTable.getD g2 (-1)

/-- The two arrays have one entry per group. -/
def lenOk (s : State) : Prop :=
  s.groupRecord.length = s.assignedTable.length

/-- Protocol-conformant invocations of the receptionist handlers: a table
request comes from a group whose ledger entry is still TOARRIVE (each group
issues exactly one table request), and a bill request comes from a group that
is seated (ledger ATTABLE) and still bound to a table. -/
inductive Step : State → State → Prop where
  | tableReq (s : State) (n : Nat)
      (hn : n < s.groupRecord.length)
      (hph : s.groupRecord.getD n TOARRIVE = TOARRIVE) :
      Step s (provideTableOrWaitingRoom s n).1
  | billReq (s : State) (n : Nat)
      (hn : n < s.groupRecord.length)
      (hph : s.groupRecord.getD n TOARRIVE = ATTABLE)
      (ht : s.assignedTable.getD n (-1) ≠ -1) :
      Step s (receivePayment s n).1

/-- States reachable from a given state by receptionist operations. -/
def Reachable : State → State → Prop :=
  Relation.ReflTransGen Step

/-- The initial state: every group still to arrive, no bindings, nobody
waiting. -/
def initState (m : Nat) : State :=
  { groupRecord := List.replicate m TOARRIVE
    assignedTable := List.replicate m (-1)
    groupsWaiting := 0
    receptionistStat := WAIT_FOR_REQUEST }

/-! ## Concrete states used by counterexamples and witnesses -/

/-- A seated group 0 at table 0 and an empty waitlist. -/
def exPayNoWaiter : State :=
  { groupRecord := [ATTABLE, TOARRIVE]
    assignedTable := [0, -1]
    groupsWaiting := 0
    receptionistStat := WAIT_FOR_REQUEST }

/-- Group 0 seated at table 0, group 1 waiting. -/
def exPayWaiter : State :=
  { groupRecord := [ATTABLE, WAIT]
    assignedTable := [0, -1]
    groupsWaiting := 1
    receptionistStat := WAIT_FOR_REQUEST }

/-- Both tables occupied (groups 0 and 1), group 2 about to be waitlisted. -/
def exFullHouse : State :=
  { groupRecord := [ATTABLE, ATTABLE, TOARRIVE]
    assignedTable := [0, 1, -1]
    groupsWaiting := 0
    receptionistStat := WAIT_FOR_REQUEST }

/-- A group with no assigned table (binding -1). -/
def exNoTable : State :=
  { groupRecord := [TOARRIVE]
    assignedTable := [-1]
    groupsWaiting := 0
    receptionistStat := WAIT_FOR_REQUEST }

/-- One waiting group only. -/
def exOneWaiter : State :=
  { groupRecord := [WAIT]
    assignedTable := [-1]
    groupsWaiting := 1
    receptionistStat := WAIT_FOR_REQUEST }

/-- A request of a kind that is neither TABLEREQ nor BILLREQ. -/
def unknownReq : request := { reqType := 5, reqGroup := 0 }

/-- A second unknown-kind request, used when discharging hypotheses. -/
def unknownReq2 : request := { reqType := 7, reqGroup := 1 }

/-- A plain table request of group 0. -/
def tableReq0 : request := { reqType := TABLEREQ, reqGroup := 0 }

/-! ## List helper lemmas -/

theorem getD_set_self {α : Type} (l : List α) (n : Nat) (v d : α) (h : n < l.length) :
    (l.set n v).getD n d = v := by
  induction l generalizing n with
  | nil => simp at h
  | cons a t ih =>
    cases n with
    | zero => rfl
    | succ m => exact ih m (Nat.lt_of_succ_lt_succ h)

theorem getD_set_ne {α : Type} (l : List α) (m n : Nat) (v d : α) (h : m ≠ n) :
    (l.set m v).getD n d = l.getD n d := by
  induction l generalizing m n with
  | nil => rfl
  | cons a t ih =>
    cases m with
    | zero =>
      cases n with
      | zero => exact absurd rfl h
      | succ n2 => rfl
    | succ m2 =>
      cases n with
      | zero => rfl
      | succ n2 => exact ih m2 n2 (fun hh => h (by rw [hh]))

theorem getD_irrel {α : Type} (l : List α) (n : Nat) (d1 d2 : α) (h : n < l.length) :
    l.getD n d1 = l.getD n d2 := by
  induction l generalizing n with
  | nil => simp at h
  | cons a t ih =>
    cases n with
    | zero => rfl
    | succ m => exact ih m (Nat.lt_of_succ_lt_succ h)

theorem getD_mem {α : Type} (l : List α) (n : Nat) (d : α) (h : n < l.length) :
    l.getD n d ∈ l := by
  induction l generalizing n with
  | nil => simp at h
  | cons a t ih =>
    cases n with
    | zero => exact List.mem_cons_self a t
    | succ m => exact List.mem_cons_of_mem a (ih m (Nat.lt_of_succ_lt_succ h))

theorem getD_replicate {α : Type} (m n : Nat) (a : α) :
    (List.replicate m a).getD n a = a := by
  induction m generalizing n with
  | zero => rfl
  | succ k ih =>
    cases n with
    | zero => rfl
    | succ n2 => exact ih n2

theorem countWait_set (l : List Nat) (n : Nat) (v : Nat) (h : n < l.length) :
    countWait (l.set n v) + (if l.getD n 0 = WAIT then 1 else 0)
      = countWait l + (if v = WAIT then 1 else 0) := by
  induction l generalizing n with
  | nil => simp at h
  | cons a t ih =>
    cases n with
    | zero =>
      have h1 : (a :: t).getD 0 0 = a := rfl
      have h2 : (a :: t).set 0 v = v :: t := rfl
      rw [h1, h2]
      simp only [countWait]
      by_cases hv : v = WAIT <;> by_cases ha : a = WAIT <;> simp [hv, ha] <;> omega
    | succ m =>
      have h1 : (a :: t).getD (m + 1) 0 = t.getD m 0 := rfl
      have h2 : (a :: t).set (m + 1) v = a :: t.set m v := rfl
      rw [h1, h2]
      simp only [countWait]
      have := ih m (Nat.lt_of_succ_lt_succ h)
      omega

/-! ## findWait and scanTables characterizations -/

theorem findWait_none (l : List Nat) : findWait l = none ↔ countWait l = 0 := by
  induction l with
  | nil => simp [findWait, countWait]
  | cons a t ih =>
    by_cases ha : a = WAIT
    · simp [findWait, countWait, ha]
    · simp [findWait, countWait, ha, ih]

theorem findWait_some (l : List Nat) (g : Nat) (h : findWait l = some g) :
    g < l.length ∧ l.getD g 0 = WAIT ∧ ∀ j, j < g → l.getD j 0 ≠ WAIT := by
  induction l generalizing g with
  | nil => simp [findWait] at h
  | cons a t ih =>
    by_cases ha : a = WAIT
    · simp [findWait, ha] at h
      subst h
      refine ⟨Nat.succ_pos _, ha, ?_⟩
      intro j hj
      exact absurd hj (Nat.not_lt_zero j)
    · simp [findWait, ha] at h
      obtain ⟨g2, hg2, rfl⟩ := h
      obtain ⟨h1, h2, h3⟩ := ih g2 hg2
      refine ⟨Nat.succ_lt_succ h1, h2, ?_⟩
      intro j hj
      cases j with
      | zero => exact ha
      | succ j2 => exact h3 j2 (Nat.lt_of_succ_lt_succ hj)

theorem scanTables_busy (l : List Int) (t : Int) :
    (scanTables l t 1 = t ∧ ∀ a ∈ l, a ≠ 0 ∧ a ≠ 1) ∨ scanTables l t 1 = -1 := by
  induction l with
  | nil => exact Or.inl ⟨rfl, by simp⟩
  | cons a rest ih =>
    by_cases h1 : a = 1
    · right; simp [scanTables, h1]
    · by_cases h0 : a = 0
      · right; simp [scanTables, h1, h0]
      · rcases ih with ⟨he, hall⟩ | he
        · left
          constructor
          · simpa [scanTables, h1, h0] using he
          · intro b hb
            rcases List.mem_cons.mp hb with rfl | hb
            · exact ⟨h0, h1⟩
            · exact hall b hb
        · right; simpa [scanTables, h1, h0] using he

theorem scanTables_grant (l : List Int) (h : scanTables l 0 0 ≠ -1) :
    (scanTables l 0 0 = 0 ∨ scanTables l 0 0 = 1) ∧ scanTables l 0 0 ∉ l := by
  induction l with
  | nil => exact ⟨Or.inl rfl, by simp⟩
  | cons a rest ih =>
    by_cases h1 : a = 1
    · have he : scanTables (a :: rest) 0 0 = scanTables rest 0 1 := by
        simp [scanTables, h1]
      rw [he] at h ⊢
      rcases scanTables_busy rest 0 with ⟨he2, hall⟩ | he2
      · rw [he2]
        refine ⟨Or.inl rfl, ?_⟩
        intro hm
        rcases List.mem_cons.mp hm with h' | h'
        · rw [h1] at h'; exact absurd h' (by decide)
        · exact (hall 0 h').1 rfl
      · exact absurd he2 h
    · by_cases h0 : a = 0
      · have he : scanTables (a :: rest) 0 0 = scanTables rest 1 1 := by
          simp [scanTables, h1, h0]
        rw [he] at h ⊢
        rcases scanTables_busy rest 1 with ⟨he2, hall⟩ | he2
        · rw [he2]
          refine ⟨Or.inr rfl, ?_⟩
          intro hm
          rcases List.mem_cons.mp hm with h' | h'
          · rw [h0] at h'; exact absurd h' (by decide)
          · exact (hall 1 h').2 rfl
        · exact absurd he2 h
      · have he : scanTables (a :: rest) 0 0 = scanTables rest 0 0 := by
          simp [scanTables, h1, h0]
        rw [he] at h ⊢
        obtain ⟨hv, hnm⟩ := ih h
        refine ⟨hv, ?_⟩
        intro hm
        rcases List.mem_cons.mp hm with h' | h'
        · rcases hv with h2 | h2
          · rw [h2] at h'; exact h0 h'.symm
          · rw [h2] at h'; exact h1 h'.symm
        · exact hnm h'

/-! ## decideNextGroup: contract and idempotence -/

theorem intOfNat_ne_negOne (g : Nat) : Int.ofNat g ≠ -1 := by
  show (g : Int) ≠ -1
  omega

theorem decideNextGroup_fst_status (s : State) (x : Nat) :
    (decideNextGroup { s with receptionistStat := x }).1 = (decideNextGroup s).1 := by
  by_cases h0 : s.groupsWaiting = 0
  · simp [decideNextGroup, h0]
  · cases hf : findWait s.groupRecord with
    | none => simp [decideNextGroup, h0, hf]
    | some g => simp [decideNextGroup, h0, hf]

/-- C3: decideNextGroup honours its contract: with nobody waiting it reports
no candidate and changes nothing; otherwise (in a state where the counter is
consistent with the ledger) it seats the waiting group of smallest id,
decrements the counter and returns that id. -/
theorem decideNextGroup_contract (s : State) (hw : waitingConsistent s) :
    (s.groupsWaiting = 0 → decideNextGroup s = (-1, s)) ∧
    (s.groupsWaiting ≠ 0 → ∃ g, g < s.groupRecord.length ∧
      s.groupRecord.getD g TOARRIVE = WAIT ∧
      (∀ j, j < g → s.groupRecord.getD j TOARRIVE ≠ WAIT) ∧
      decideNextGroup s =
        (Int.ofNat g,
         { s with groupRecord := s.groupRecord.set g ATTABLE,
                  groupsWaiting := s.groupsWaiting - 1 })) := by
  constructor
  · intro h0; simp [decideNextGroup, h0]
  · intro hne
    have hc : countWait s.groupRecord ≠ 0 := by
      rw [waitingConsistent] at hw; omega
    have hf : findWait s.groupRecord ≠ none := by
      intro hn; exact hc ((findWait_none _).mp hn)
    obtain ⟨g, hg⟩ := Option.ne_none_iff_exists'.mp hf
    obtain ⟨h1, h2, h3⟩ := findWait_some _ _ hg
    refine ⟨g, h1, ?_, ?_, ?_⟩
    · rw [getD_irrel _ _ _ 0 h1]; exact h2
    · intro j hj
      rw [getD_irrel _ _ _ 0 (Nat.lt_trans hj h1)]
      exact h3 j hj
    · simp [decideNextGroup, hne, hg]

theorem decideNextGroup_contract_witness :
    ∃ g, g < exOneWaiter.groupRecord.length ∧
      exOneWaiter.groupRecord.getD g TOARRIVE = WAIT ∧
      (∀ j, j < g → exOneWaiter.groupRecord.getD j TOARRIVE ≠ WAIT) ∧
      decideNextGroup exOneWaiter =
        (Int.ofNat g,
         { exOneWaiter with groupRecord := exOneWaiter.groupRecord.set g ATTABLE,
                            groupsWaiting := exOneWaiter.groupsWaiting - 1 }) :=
  (decideNextGroup_contract exOneWaiter
      (show exOneWaiter.groupsWaiting = countWait exOneWaiter.groupRecord by decide)).2
    (by decide)

/-- C9: when decideNextGroup reports no candidate it has changed nothing, and
calling it again immediately reports no candidate again on the unchanged
state. -/
theorem decideNextGroup_no_candidate_idempotent (s : State)
    (h : (decideNextGroup s).1 = -1) :
    (decideNextGroup s).2 = s ∧
    decideNextGroup ((decideNextGroup s).2) = (-1, (decideNextGroup s).2) := by
  by_cases h0 : s.groupsWaiting = 0
  · have he : decideNextGroup s = (-1, s) := by simp [decideNextGroup, h0]
    rw [he]
    exact ⟨rfl, by simp [decideNextGroup, h0]⟩
  · cases hf : findWait s.groupRecord with
    | none =>
      have he : decideNextGroup s = (-1, s) := by simp [decideNextGroup, h0, hf]
      rw [he]
      exact ⟨rfl, by simp [decideNextGroup, h0, hf]⟩
    | some g =>
      have he : (decideNextGroup s).1 = Int.ofNat g := by
        simp [decideNextGroup, h0, hf]
      rw [he] at h
      exact absurd h (intOfNat_ne_negOne g)

theorem decideNextGroup_no_candidate_idempotent_witness :
    (decideNextGroup exNoTable).2 = exNoTable ∧
    decideNextGroup ((decideNextGroup exNoTable).2) = (-1, (decideNextGroup exNoTable).2) :=
  decideNextGroup_no_candidate_idempotent exNoTable (by decide)

/-! ## receivePayment: Done marking (C1) -/

/-- C1 counterexample: group 0 pays with nobody waiting; after receivePayment
its ledger entry is still ATTABLE, not DONE. -/
theorem receivePayment_not_marked_done :
    ((receivePayment exPayNoWaiter 0).1).groupRecord.getD 0 TOARRIVE = ATTABLE ∧
    ATTABLE ≠ DONE := by decide

/-- C1 amended: the paying group is marked DONE exactly when decideNextGroup
selected a replacement; when no candidate is reported the payer's ledger
entry is left unchanged at ATTABLE. -/
theorem receivePayment_done_marking (s : State) (n : Nat)
    (hn : n < s.groupRecord.length)
    (hph : s.groupRecord.getD n TOARRIVE = ATTABLE) :
    ((decideNextGroup s).1 ≠ -1 →
       ((receivePayment s n).1).groupRecord.getD n TOARRIVE = DONE) ∧
    ((decideNextGroup s).1 = -1 →
       ((receivePayment s n).1).groupRecord.getD n TOARRIVE = ATTABLE) := by
  by_cases h0 : s.groupsWaiting = 0
  · have he1 : (decideNextGroup s).1 = -1 := by simp [decideNextGroup, h0]
    constructor
    · intro hc; exact absurd he1 hc
    · intro _
      have hrec : ((receivePayment s n).1).groupRecord = s.groupRecord := by
        simp [receivePayment, decideNextGroup, h0]
      rw [hrec]; exact hph
  · cases hf : findWait s.groupRecord with
    | none =>
      have he1 : (decideNextGroup s).1 = -1 := by simp [decideNextGroup, h0, hf]
      constructor
      · intro hc; exact absurd he1 hc
      · intro _
        have hrec : ((receivePayment s n).1).groupRecord = s.groupRecord := by
          simp [receivePayment, decideNextGroup, h0, hf]
        rw [hrec]; exact hph
    | some g =>
      have he1 : (decideNextGroup s).1 = Int.ofNat g := by
        simp [decideNextGroup, h0, hf]
      constructor
      · intro _
        have hrec : ((receivePayment s n).1).groupRecord
            = (s.groupRecord.set g ATTABLE).set n DONE := by
          simp [receivePayment, decideNextGroup, h0, hf, intOfNat_ne_negOne g]
        rw [hrec]
        exact getD_set_self _ n DONE TOARRIVE (by simpa using hn)
      · intro hc
        rw [he1] at hc
        exact absurd hc (intOfNat_ne_negOne g)

theorem receivePayment_done_marking_witness :
    ((receivePayment exPayWaiter 0).1).groupRecord.getD 0 TOARRIVE = DONE :=
  (receivePayment_done_marking exPayWaiter 0 (by decide) (by decide)).1 (by decide)

/-! ## provideTableOrWaitingRoom: frame of the wait branch (C7) -/

/-- C7 counterexample: on the wait branch no signal is emitted and the
assignment record is untouched, but a state component other than the ledger
entry and the waiting counter does change: the published receptionist
status. -/
theorem provide_wait_branch_changes_status :
    (provideTableOrWaitingRoom exFullHouse 2).2 = [] ∧
    ((provideTableOrWaitingRoom exFullHouse 2).1).assignedTable
      = exFullHouse.assignedTable ∧
    ((provideTableOrWaitingRoom exFullHouse 2).1).receptionistStat
      ≠ exFullHouse.receptionistStat := by decide

/-- C7 amended: on the wait branch (decideTableOrWait reports no table) no
grant signal is sent and every entry of the assignment record is unchanged;
besides the published status (set to ASSIGNTABLE at handler entry) the only
state changed is the ledger entry for n (set to WAIT) and the groupsWaiting
counter (incremented by one). -/
theorem provide_wait_branch_frame (s : State) (n : Nat)
    (h : scanTables s.assignedTable 0 0 = -1) :
    (provideTableOrWaitingRoom s n).2 = [] ∧
    ((provideTableOrWaitingRoom s n).1).assignedTable = s.assignedTable ∧
    ((provideTableOrWaitingRoom s n).1).groupRecord = s.groupRecord.set n WAIT ∧
    ((provideTableOrWaitingRoom s n).1).groupsWaiting = s.groupsWaiting + 1 ∧
    ((provideTableOrWaitingRoom s n).1).receptionistStat = ASSIGNTABLE := by
  simp [provideTableOrWaitingRoom, decideTableOrWait, h]

theorem provide_wait_branch_frame_witness :
    (provideTableOrWaitingRoom exFullHouse 2).2 = [] ∧
    ((provideTableOrWaitingRoom exFullHouse 2).1).assignedTable
      = exFullHouse.assignedTable ∧
    ((provideTableOrWaitingRoom exFullHouse 2).1).groupRecord
      = exFullHouse.groupRecord.set 2 WAIT ∧
    ((provideTableOrWaitingRoom exFullHouse 2).1).groupsWaiting
      = exFullHouse.groupsWaiting + 1 ∧
    ((provideTableOrWaitingRoom exFullHouse 2).1).receptionistStat = ASSIGNTABLE :=
  provide_wait_branch_frame exFullHouse 2 (by decide)

/-! ## waitForGroup: event ordering (C6) -/

/-- C6: the trace of waitForGroup is exactly: acquire the lock, publish
WaitingForRequest, log, release, block on the request-available signal,
reacquire, copy the pending request out, release, and only then signal the
slot free; the slot is copied out exactly once and the slot-free signal is
emitted exactly once, after the copy. -/
theorem waitForGroup_event_order :
    waitForGroupTrace.length = 9 ∧
    waitForGroupTrace.getD 0 WEvent.saveLog = WEvent.acquireMutex ∧
    waitForGroupTrace.getD 1 WEvent.saveLog = WEvent.publishWaitingStatus ∧
    waitForGroupTrace.getD 2 WEvent.saveLog = WEvent.saveLog ∧
    waitForGroupTrace.getD 3 WEvent.saveLog = WEvent.releaseMutex ∧
    waitForGroupTrace.getD 4 WEvent.saveLog = WEvent.blockOnRequestAvailable ∧
    waitForGroupTrace.getD 5 WEvent.saveLog = WEvent.acquireMutex ∧
    waitForGroupTrace.getD 6 WEvent.saveLog = WEvent.copyPendingRequest ∧
    waitForGroupTrace.getD 7 WEvent.saveLog = WEvent.releaseMutex ∧
    waitForGroupTrace.getD 8 WEvent.saveLog = WEvent.signalSlotFree ∧
    waitForGroupTrace.count WEvent.copyPendingRequest = 1 ∧
    waitForGroupTrace.count WEvent.signalSlotFree = 1 := by decide

/-! ## receivePayment: vacancy signal index (C10) -/

theorem receivePayment_signals (s : State) (n : Nat) :
    (receivePayment s n).2 = [Signal.tableDone (s.assignedTable.getD n (-1))] ∨
    ∃ g : Nat, (receivePayment s n).2 =
      [Signal.waitForTable g, Signal.tableDone (s.assignedTable.getD n (-1))] := by
  by_cases h0 : s.groupsWaiting = 0
  · left; simp [receivePayment, decideNextGroup, h0]
  · cases hf : findWait s.groupRecord with
    | none => left; simp [receivePayment, decideNextGroup, h0, hf]
    | some g =>
      right
      refine ⟨g, ?_⟩
      simp [receivePayment, decideNextGroup, h0, hf, intOfNat_ne_negOne g]

/-- C10: receivePayment signals the per-table vacancy semaphore exactly at
the index read from the payer's assignment entry at handler entry; when that
entry holds a real table id (in range of the table array) the signalled index
is in range, and a bill request from a group with binding -1 reaches an
out-of-range index (-1). -/
theorem receivePayment_vacancy_signal_index :
    (∀ s n, Signal.tableDone (s.assignedTable.getD n (-1)) ∈ (receivePayment s n).2) ∧
    (∀ s n t, Signal.tableDone t ∈ (receivePayment s n).2 →
       t = s.assignedTable.getD n (-1)) ∧
    (∀ s n (T : Int),
       0 ≤ s.assignedTable.getD n (-1) → s.assignedTable.getD n (-1) < T →
       ∃ t, Signal.tableDone t ∈ (receivePayment s n).2 ∧ 0 ≤ t ∧ t < T) ∧
    Signal.tableDone (-1) ∈ (receivePayment exNoTable 0).2 := by
  have hmem : ∀ s n,
      Signal.tableDone (s.assignedTable.getD n (-1)) ∈ (receivePayment s n).2 := by
    intro s n
    rcases receivePayment_signals s n with h | ⟨g, h⟩ <;> simp [h]
  refine ⟨hmem, ?_, ?_, ?_⟩
  · intro s n t ht
    rcases receivePayment_signals s n with h | ⟨g, h⟩
    · rw [h] at ht
      exact Signal.tableDone.inj (List.mem_singleton.mp ht)
    · rw [h] at ht
      rcases List.mem_cons.mp ht with h' | h'
      · simp at h'
      · exact Signal.tableDone.inj (List.mem_singleton.mp h')
  · intro s n T h1 h2
    exact ⟨s.assignedTable.getD n (-1), hmem s n, h1, h2⟩
  · decide

theorem receivePayment_vacancy_signal_index_witness :
    ∃ t, Signal.tableDone t ∈ (receivePayment exPayNoWaiter 0).2 ∧ 0 ≤ t ∧ t < 2 :=
  receivePayment_vacancy_signal_index.2.2.1 exPayNoWaiter 0 2 (by decide) (by decide)

/-! ## The counter matches the ledger (C4) -/

/-- C4: every protocol-conformant receptionist operation (a table request
handled by provideTableOrWaitingRoom / decideTableOrWait, a bill request
handled by receivePayment / decideNextGroup) preserves the equality between
the shared groupsWaiting counter and the number of ledger entries in WAIT
phase, as observed outside the critical section. -/
theorem groupsWaiting_matches_ledger (s s' : State) (hstep : Step s s')
    (hw : waitingConsistent s) : waitingConsistent s' := by
  rw [waitingConsistent] at hw
  cases hstep with
  | tableReq n hn hph =>
    have hg : s.groupRecord.getD n 0 = TOARRIVE := by
      rw [getD_irrel _ _ 0 TOARRIVE hn]; exact hph
    by_cases hscan : scanTables s.assignedTable 0 0 = -1
    · have hrec : ((provideTableOrWaitingRoom s n).1).groupRecord
          = s.groupRecord.set n WAIT := by
        simp [provideTableOrWaitingRoom, decideTableOrWait, hscan]
      have hcnt : ((provideTableOrWaitingRoom s n).1).groupsWaiting
          = s.groupsWaiting + 1 := by
        simp [provideTableOrWaitingRoom, decideTableOrWait, hscan]
      rw [waitingConsistent, hrec, hcnt]
      have hcs := countWait_set s.groupRecord n WAIT hn
      rw [hg, if_neg (show ¬TOARRIVE = WAIT by decide), if_pos rfl] at hcs
      omega
    · have hrec : ((provideTableOrWaitingRoom s n).1).groupRecord
          = s.groupRecord.set n ATTABLE := by
        simp [provideTableOrWaitingRoom, decideTableOrWait, hscan]
      have hcnt : ((provideTableOrWaitingRoom s n).1).groupsWaiting
          = s.groupsWaiting := by
        simp [provideTableOrWaitingRoom, decideTableOrWait, hscan]
      rw [waitingConsistent, hrec, hcnt]
      have hcs := countWait_set s.groupRecord n ATTABLE hn
      rw [hg, if_neg (show ¬TOARRIVE = WAIT by decide),
          if_neg (show ¬ATTABLE = WAIT by decide)] at hcs
      omega
  | billReq n hn hph ht =>
    by_cases h0 : s.groupsWaiting = 0
    · have hrec : ((receivePayment s n).1).groupRecord = s.groupRecord := by
        simp [receivePayment, decideNextGroup, h0]
      have hcnt : ((receivePayment s n).1).groupsWaiting = s.groupsWaiting := by
        simp [receivePayment, decideNextGroup, h0]
      rw [waitingConsistent, hrec, hcnt]; exact hw
    · cases hf : findWait s.groupRecord with
      | none =>
        have hrec : ((receivePayment s n).1).groupRecord = s.groupRecord := by
          simp [receivePayment, decideNextGroup, h0, hf]
        have hcnt : ((receivePayment s n).1).groupsWaiting = s.groupsWaiting := by
          simp [receivePayment, decideNextGroup, h0, hf]
        rw [waitingConsistent, hrec, hcnt]; exact hw
      | some g =>
        obtain ⟨hg1, hg2, hg3⟩ := findWait_some _ _ hf
        have hgn : g ≠ n := by
          intro he
          rw [he, getD_irrel _ _ 0 TOARRIVE hn, hph] at hg2
          exact absurd hg2 (by decide)
        have hrec : ((receivePayment s n).1).groupRecord
            = (s.groupRecord.set g ATTABLE).set n DONE := by
          simp [receivePayment, decideNextGroup, h0, hf, intOfNat_ne_negOne g]
        have hcnt : ((receivePayment s n).1).groupsWaiting
            = s.groupsWaiting - 1 := by
          simp [receivePayment, decideNextGroup, h0, hf, intOfNat_ne_negOne g]
        rw [waitingConsistent, hrec, hcnt]
        have hcs1 := countWait_set s.groupRecord g ATTABLE hg1
        rw [hg2, if_pos rfl, if_neg (show ¬ATTABLE = WAIT by decide)] at hcs1
        have hn2 : n < (s.groupRecord.set g ATTABLE).length := by
          simpa using hn
        have hcs2 := countWait_set (s.groupRecord.set g ATTABLE) n DONE hn2
        have hgd : (s.groupRecord.set g ATTABLE).getD n 0 = ATTABLE := by
          rw [getD_set_ne _ _ _ _ _ hgn, getD_irrel _ _ 0 TOARRIVE hn]
          exact hph
        rw [hgd, if_neg (show ¬ATTABLE = WAIT by decide),
            if_neg (show ¬DONE = WAIT by decide)] at hcs2
        omega

theorem groupsWaiting_matches_ledger_witness :
    waitingConsistent ((provideTableOrWaitingRoom (initState 2) 0).1) :=
  groupsWaiting_matches_ledger _ _
    (Step.tableReq (initState 2) 0 (by decide) (by decide))
    (show (initState 2).groupsWaiting = countWait (initState 2).groupRecord by decide)

/-! ## No double booking (C5) -/

theorem step_preserves_inv (s s' : State) (hstep : Step s s')
    (h : lenOk s ∧ NoDoubleBooking s) : lenOk s' ∧ NoDoubleBooking s' := by
  obtain ⟨hlen, hdb⟩ := h
  rw [lenOk] at hlen
  cases hstep with
  | tableReq n hn hph =>
    have hnA : n < s.assignedTable.length := hlen ▸ hn
    by_cases hscan : scanTables s.assignedTable 0 0 = -1
    · have hasn : ((provideTableOrWaitingRoom s n).1).assignedTable
          = s.assignedTable := by
        simp [provideTableOrWaitingRoom, decideTableOrWait, hscan]
      have hrec : ((provideTableOrWaitingRoom s n).1).groupRecord
          = s.groupRecord.set n WAIT := by
        simp [provideTableOrWaitingRoom, decideTableOrWait, hscan]
      constructor
      · rw [lenOk, hasn, hrec]; simpa using hlen
      · intro g1 g2 h1 h2 hne
        rw [hasn] at h1 h2 ⊢
        exact hdb g1 g2 h1 h2 hne
    · obtain ⟨hv, hnm⟩ := scanTables_grant s.assignedTable hscan
      have hasn : ((provideTableOrWaitingRoom s n).1).assignedTable
          = s.assignedTable.set n (scanTables s.assignedTable 0 0) := by
        simp [provideTableOrWaitingRoom, decideTableOrWait, hscan]
      have hrec : ((provideTableOrWaitingRoom s n).1).groupRecord
          = s.groupRecord.set n ATTABLE := by
        simp [provideTableOrWaitingRoom, decideTableOrWait, hscan]
      constructor
      · rw [lenOk, hasn, hrec]; simpa using hlen
      · intro g1 g2 h1 h2 hne
        rw [hasn] at h1 h2 ⊢
        rw [List.length_set] at h1 h2
        by_cases e1 : g1 = n
        · subst e1
          right
          rw [getD_set_self _ _ _ _ hnA,
              getD_set_ne _ _ _ _ _ hne]
          intro he
          exact hnm (he ▸ getD_mem s.assignedTable g2 (-1) h2)
        · by_cases e2 : g2 = n
          · subst e2
            by_cases hm1 : s.assignedTable.getD g1 (-1) = -1
            · left
              rw [getD_set_ne _ _ _ _ _ (fun hh => e1 hh.symm)]
              exact hm1
            · right
              rw [getD_set_ne _ _ _ _ _ (fun hh => e1 hh.symm),
                  getD_set_self _ _ _ _ hnA]
              intro he
              exact hnm (he ▸ getD_mem s.assignedTable g1 (-1) h1)
          · rw [getD_set_ne _ _ _ _ _ (fun hh => e1 hh.symm),
                getD_set_ne _ _ _ _ _ (fun hh => e2 hh.symm)]
            exact hdb g1 g2 h1 h2 hne
  | billReq n hn hph ht =>
    have hnA : n < s.assignedTable.length := hlen ▸ hn
    have key1 : ∀ g1 g2,
        g1 < (s.assignedTable.set n (-1)).length →
        g2 < (s.assignedTable.set n (-1)).length → g1 ≠ g2 →
        (s.assignedTable.set n (-1)).getD g1 (-1) = -1 ∨
        (s.assignedTable.set n (-1)).getD g1 (-1)
          ≠ (s.assignedTable.set n (-1)).getD g2 (-1) := by
      intro g1 g2 h1 h2 hne
      rw [List.length_set] at h1 h2
      by_cases e1 : g1 = n
      · subst e1
        left
        exact getD_set_self _ _ _ _ hnA
      · by_cases e2 : g2 = n
        · subst e2
          by_cases hm1 : s.assignedTable.getD g1 (-1) = -1
          · left
            rw [getD_set_ne _ _ _ _ _ (fun hh => e1 hh.symm)]
            exact hm1
          · right
            rw [getD_set_ne _ _ _ _ _ (fun hh => e1 hh.symm),
                getD_set_self _ _ _ _ hnA]
            exact hm1
        · rw [getD_set_ne _ _ _ _ _ (fun hh => e1 hh.symm),
              getD_set_ne _ _ _ _ _ (fun hh => e2 hh.symm)]
          exact hdb g1 g2 h1 h2 hne
    by_cases h0 : s.groupsWaiting = 0
    · have hasn : ((receivePayment s n).1).assignedTable
          = s.assignedTable.set n (-1) := by
        simp [receivePayment, decideNextGroup, h0]
      have hrec : ((receivePayment s n).1).groupRecord = s.groupRecord := by
        simp [receivePayment, decideNextGroup, h0]
      constructor
      · rw [lenOk, hasn, hrec]; simpa using hlen
      · intro g1 g2 h1 h2 hne
        rw [hasn] at h1 h2 ⊢
        exact key1 g1 g2 h1 h2 hne
    · cases hf : findWait s.groupRecord with
      | none =>
        have hasn : ((receivePayment s n).1).assignedTable
            = s.assignedTable.set n (-1) := by
          simp [receivePayment, decideNextGroup, h0, hf]
        have hrec : ((receivePayment s n).1).groupRecord = s.groupRecord := by
          simp [receivePayment, decideNextGroup, h0, hf]
        constructor
        · rw [lenOk, hasn, hrec]; simpa using hlen
        · intro g1 g2 h1 h2 hne
          rw [hasn] at h1 h2 ⊢
          exact key1 g1 g2 h1 h2 hne
      | some g =>
        obtain ⟨hg1, hg2, hg3⟩ := findWait_some _ _ hf
        have hgn : g ≠ n := by
          intro he
          rw [he, getD_irrel _ _ 0 TOARRIVE hn, hph] at hg2
          exact absurd hg2 (by decide)
        have hgA : g < s.assignedTable.length := hlen ▸ hg1
        have hasn : ((receivePayment s n).1).assignedTable
            = (s.assignedTable.set g (s.assignedTable.getD n (-1))).set n (-1) := by
          simp [receivePayment, decideNextGroup, h0, hf, intOfNat_ne_negOne g]
        have hrec : ((receivePayment s n).1).groupRecord
            = (s.groupRecord.set g ATTABLE).set n DONE := by
          simp [receivePayment, decideNextGroup, h0, hf, intOfNat_ne_negOne g]
        constructor
        · rw [lenOk, hasn, hrec]; simpa using hlen
        · intro g1 g2 h1 h2 hne
          rw [hasn] at h1 h2 ⊢
          rw [List.length_set, List.length_set] at h1 h2
          have hnA2 : n < (s.assignedTable.set g (s.assignedTable.getD n (-1))).length := by
            simpa using hnA
          have hgA2 : g < s.assignedTable.length := hgA
          by_cases e1 : g1 = n
          · subst e1
            left
            exact getD_set_self _ _ _ _ hnA2
          · by_cases e1g : g1 = g
            · subst e1g
              right
              rw [getD_set_ne _ _ _ _ _ (fun hh => hgn hh.symm),
                  getD_set_self _ _ _ _ hgA2]
              by_cases e2 : g2 = n
              · subst e2
                rw [getD_set_self _ _ _ _ hnA2]
                exact ht
              · by_cases e2g : g2 = g1
                · exact absurd e2g.symm hne
                · rw [getD_set_ne _ _ _ _ _ (fun hh => e2 hh.symm),
                      getD_set_ne _ _ _ _ _ (fun hh => e2g hh.symm)]
                  rcases hdb n g2 hnA h2 (fun hh => e2 hh.symm) with hx | hx
                  · exact absurd hx ht
                  · exact hx
            · by_cases hm1 : s.assignedTable.getD g1 (-1) = -1
              · left
                rw [getD_set_ne _ _ _ _ _ (fun hh => e1 hh.symm),
                    getD_set_ne _ _ _ _ _ (fun hh => e1g hh.symm)]
                exact hm1
              · right
                rw [getD_set_ne _ _ _ _ _ (fun hh => e1 hh.symm),
                    getD_set_ne _ _ _ _ _ (fun hh => e1g hh.symm)]
                by_cases e2 : g2 = n
                · subst e2
                  rw [getD_set_self _ _ _ _ hnA2]
                  exact hm1
                · by_cases e2g : g2 = g
                  · subst e2g
                    rw [getD_set_ne _ _ _ _ _ (fun hh => hgn hh.symm),
                        getD_set_self _ _ _ _ hgA2]
                    rcases hdb g1 n h1 hnA e1 with hx | hx
                    · exact absurd hx hm1
                    · exact hx
                  · rw [getD_set_ne _ _ _ _ _ (fun hh => e2 hh.symm),
                        getD_set_ne _ _ _ _ _ (fun hh => e2g hh.symm)]
                    rcases hdb g1 g2 h1 h2 hne with hx | hx
                    · exact absurd hx hm1
                    · exact hx

theorem initState_inv (m : Nat) : lenOk (initState m) ∧ NoDoubleBooking (initState m) := by
  constructor
  · simp [lenOk, initState]
  · intro g1 g2 h1 h2 hne
    left
    exact getD_replicate m g1 (-1)

theorem reachable_inv (s0 s : State) (h : Reachable s0 s)
    (h0 : lenOk s0 ∧ NoDoubleBooking s0) : lenOk s ∧ NoDoubleBooking s := by
  have h' : Relation.ReflTransGen Step s0 s := h
  clear h
  induction h' with
  | refl => exact h0
  | tail _ hstep ih => exact step_preserves_inv _ _ hstep ih

/-- C5: in every state reachable from the initial state by protocol-conformant
receptionist operations, at most one group id is bound to any given table id
in the shared assignment record. -/
theorem assignment_no_double_booking (m : Nat) (s : State)
    (h : Reachable (initState m) s) : NoDoubleBooking s :=
  (reachable_inv _ _ h (initState_inv m)).2

theorem assignment_no_double_booking_witness :
    NoDoubleBooking ((provideTableOrWaitingRoom (initState 2) 0).1) :=
  assignment_no_double_booking 2 _
    (Relation.ReflTransGen.single (Step.tableReq (initState 2) 0 (by decide) (by decide)))

/-! ## Run loop and failure semantics (C2, C8) -/

theorem waitForGroupE_allOk (env : SemOracle) (hall : ∀ j, env j = true)
    (slot : request) (s : State) (k : Nat) :
    ∃ k', waitForGroupE env slot s k
      = .ok (slot, { s with receptionistStat := WAIT_FOR_REQUEST }, k') := by
  simp [waitForGroupE, semOp, hall]

theorem provideE_allOk (env : SemOracle) (hall : ∀ j, env j = true)
    (n : Nat) (s : State) (k : Nat) :
    ∃ p, provideE env n s k = .ok p := by
  by_cases hb : (decideTableOrWait { s with receptionistStat := ASSIGNTABLE } n).1 = -1
  · simp [provideE, semOp, hall, hb]
  · simp [provideE, semOp, hall, hb]

theorem receiveE_allOk (env : SemOracle) (hall : ∀ j, env j = true)
    (n : Nat) (s : State) (k : Nat) :
    ∃ p, receiveE env n s k = .ok p := by
  by_cases hb : (decideNextGroup { s with receptionistStat := RECVPAY }).1 = -1
  · simp [receiveE, semOp, hall, hb]
  · simp [receiveE, semOp, hall, hb]

theorem dispatchE_allOk (env : SemOracle) (hall : ∀ j, env j = true)
    (req : request) (s : State) (k : Nat) :
    ∃ p, dispatchE env req s k = .ok p := by
  unfold dispatchE
  by_cases ht : req.reqType = TABLEREQ
  · simp only [if_pos ht]
    exact provideE_allOk env hall req.reqGroup s k
  · simp only [if_neg ht]
    by_cases hbq : req.reqType = BILLREQ
    · simp only [if_pos hbq]
      exact receiveE_allOk env hall req.reqGroup s k
    · simp only [if_neg hbq]
      exact ⟨(s, k), rfl⟩

theorem runLoop_allOk (env : SemOracle) (reqs : Nat → request)
    (hall : ∀ j, env j = true) :
    ∀ (r : Nat) (s : State) (k i : Nat),
      ∃ s', runLoop env reqs r s k i = .ok (s', i + r) := by
  intro r
  induction r with
  | zero => intro s k i; exact ⟨s, rfl⟩
  | succ r ih =>
    intro s k i
    obtain ⟨k6, hw⟩ := waitForGroupE_allOk env hall (reqs i) s k
    obtain ⟨⟨s2, k2⟩, hd⟩ :=
      dispatchE_allOk env hall (reqs i) { s with receptionistStat := WAIT_FOR_REQUEST } k6
    obtain ⟨s', hrec⟩ := ih s2 k2 (i + 1)
    refine ⟨s', ?_⟩
    have harith : i + (r + 1) = (i + 1) + r := by omega
    rw [harith]
    simp [runLoop, hw, hd, hrec]

theorem waitForGroupE_cases (env : SemOracle) (slot : request) (s : State) (k : Nat) :
    (∃ p, waitForGroupE env slot s k = .ok p) ∨
    waitForGroupE env slot s k = .error EXIT_FAILURE := by
  cases h1 : env k
  · right; simp [waitForGroupE, semOp, h1]
  · cases h2 : env (k + 1)
    · right; simp [waitForGroupE, semOp, h1, h2]
    · cases h3 : env (k + 1 + 1)
      · right; simp [waitForGroupE, semOp, h1, h2, h3]
      · cases h4 : env (k + 1 + 1 + 1)
        · right; simp [waitForGroupE, semOp, h1, h2, h3, h4]
        · cases h5 : env (k + 1 + 1 + 1 + 1)
          · right; simp [waitForGroupE, semOp, h1, h2, h3, h4, h5]
          · cases h6 : env (k + 1 + 1 + 1 + 1 + 1)
            · right; simp [waitForGroupE, semOp, h1, h2, h3, h4, h5, h6]
            · left; simp [waitForGroupE, semOp, h1, h2, h3, h4, h5, h6]

theorem provideE_cases (env : SemOracle) (n : Nat) (s : State) (k : Nat) :
    (∃ p, provideE env n s k = .ok p) ∨
    provideE env n s k = .error EXIT_FAILURE := by
  by_cases hb : (decideTableOrWait { s with receptionistStat := ASSIGNTABLE } n).1 = -1
  · cases h1 : env k
    · right; simp [provideE, semOp, h1]
    · cases h2 : env (k + 1)
      · right; simp [provideE, semOp, h1, h2, hb]
      · left; simp [provideE, semOp, h1, h2, hb]
  · cases h1 : env k
    · right; simp [provideE, semOp, h1]
    · cases h2 : env (k + 1)
      · right; simp [provideE, semOp, h1, h2, hb]
      · cases h3 : env (k + 1 + 1)
        · right; simp [provideE, semOp, h1, h2, h3, hb]
        · left; simp [provideE, semOp, h1, h2, h3, hb]

theorem receiveE_cases (env : SemOracle) (n : Nat) (s : State) (k : Nat) :
    (∃ p, receiveE env n s k = .ok p) ∨
    receiveE env n s k = .error EXIT_FAILURE := by
  by_cases hb : (decideNextGroup { s with receptionistStat := RECVPAY }).1 = -1
  · cases h1 : env k
    · right; simp [receiveE, semOp, h1]
    · cases h2 : env (k + 1)
      · right; simp [receiveE, semOp, h1, h2, hb]
      · cases h3 : env (k + 1 + 1)
        · right; simp [receiveE, semOp, h1, h2, h3, hb]
        · left; simp [receiveE, semOp, h1, h2, h3, hb]
  · cases h1 : env k
    · right; simp [receiveE, semOp, h1]
    · cases h2 : env (k + 1)
      · right; simp [receiveE, semOp, h1, h2, hb]
      · cases h3 : env (k + 1 + 1)
        · right; simp [receiveE, semOp, h1, h2, h3, hb]
        · cases h4 : env (k + 1 + 1 + 1)
          · right; simp [receiveE, semOp, h1, h2, h3, h4, hb]
          · left; simp [receiveE, semOp, h1, h2, h3, h4, hb]

theorem dispatchE_cases (env : SemOracle) (req : request) (s : State) (k : Nat) :
    (∃ p, dispatchE env req s k = .ok p) ∨
    dispatchE env req s k = .error EXIT_FAILURE := by
  unfold dispatchE
  by_cases ht : req.reqType = TABLEREQ
  · simp only [if_pos ht]
    exact provideE_cases env req.reqGroup s k
  · simp only [if_neg ht]
    by_cases hbq : req.reqType = BILLREQ
    · simp only [if_pos hbq]
      exact receiveE_cases env req.reqGroup s k
    · simp only [if_neg hbq]
      left; exact ⟨(s, k), rfl⟩

theorem runLoop_cases (env : SemOracle) (reqs : Nat → request) :
    ∀ (r : Nat) (s : State) (k i : Nat),
      (∃ s', runLoop env reqs r s k i = .ok (s', i + r)) ∨
      runLoop env reqs r s k i = .error EXIT_FAILURE := by
  intro r
  induction r with
  | zero => intro s k i; left; exact ⟨s, rfl⟩
  | succ r ih =>
    intro s k i
    rcases waitForGroupE_cases env (reqs i) s k with ⟨⟨rq, s1, k1⟩, hw⟩ | hw
    · rcases dispatchE_cases env rq s1 k1 with ⟨⟨s2, k2⟩, hd⟩ | hd
      · rcases ih s2 k2 (i + 1) with ⟨s', hrec⟩ | hrec
        · left
          refine ⟨s', ?_⟩
          have harith : i + (r + 1) = (i + 1) + r := by omega
          rw [harith]
          simp [runLoop, hw, hd, hrec]
        · right
          simp [runLoop, hw, hd, hrec]
      · right
        simp [runLoop, hw, hd]
    · right
      simp [runLoop, hw]

/-- C8: the run loop processes exactly 2 × nGroups requests and then exits
with EXIT_SUCCESS; every run either does so or aborts with the non-zero
EXIT_FAILURE status, and a failure-free run of the semaphore fabric always
takes the successful branch. -/
theorem receptionist_run_contract (env : SemOracle) (reqs : Nat → request)
    (n : Nat) (s0 : State) :
    (mainE env reqs n s0 = .ok (EXIT_SUCCESS, 2 * n) ∨
     mainE env reqs n s0 = .error EXIT_FAILURE) ∧
    ((∀ j, env j = true) → mainE env reqs n s0 = .ok (EXIT_SUCCESS, 2 * n)) ∧
    EXIT_FAILURE ≠ EXIT_SUCCESS := by
  refine ⟨?_, ?_, by decide⟩
  · rcases runLoop_cases env reqs (2 * n) s0 0 0 with ⟨s', h⟩ | h
    · left; simp [mainE, h]
    · right; simp [mainE, h]
  · intro hall
    obtain ⟨s', h⟩ := runLoop_allOk env reqs hall (2 * n) s0 0 0
    simp [mainE, h]

theorem receptionist_run_contract_witness :
    mainE (fun _ => true) (fun _ => tableReq0) 1 (initState 1)
      = .ok (EXIT_SUCCESS, 2) := by
  have h := (receptionist_run_contract (fun _ => true) (fun _ => tableReq0) 1
      (initState 1)).2.1 (fun _ => rfl)
  simpa using h

/-! ## Unknown request kinds (C2) -/

/-- C2 counterexample: a request of unknown kind is not treated as fatal: the
dispatch leaves the state untouched and emits nothing, and a run whose two
delivered requests are both of unknown kind still terminates with
EXIT_SUCCESS after counting both toward the 2 × nGroups budget. -/
theorem dispatch_unknown_kind_cex :
    dispatch exPayNoWaiter unknownReq = (exPayNoWaiter, []) ∧
    mainE (fun _ => true) (fun _ => unknownReq) 1 exPayNoWaiter
      = .ok (EXIT_SUCCESS, 2) := by
  exact ⟨rfl, rfl⟩

/-- C2 amended: a request whose kind is neither TABLEREQ nor BILLREQ is
silently ignored: the dispatch switch matches no case, so the state is
unchanged and no signal is emitted, and the request still counts toward the
2 × nGroups request budget (a run fed only unknown kinds terminates
successfully after 2 × nGroups requests). -/
theorem dispatch_unknown_kind :
    (∀ s req, req.reqType ≠ TABLEREQ → req.reqType ≠ BILLREQ →
       dispatch s req = (s, [])) ∧
    (∀ n s0, mainE (fun _ => true) (fun _ => unknownReq) n s0
       = .ok (EXIT_SUCCESS, 2 * n)) := by
  constructor
  · intro s req h1 h2
    simp [dispatch, h1, h2]
  · intro n s0
    obtain ⟨s', h⟩ :=
      runLoop_allOk (fun _ => true) (fun _ => unknownReq) (fun _ => rfl) (2 * n) s0 0 0
    simp [mainE, h]

theorem dispatch_unknown_kind_witness :
    dispatch exFullHouse unknownReq2 = (exFullHouse, []) :=
  dispatch_unknown_kind.1 exFullHouse unknownReq2 (by decide) (by decide)
